import Mathlib

/-!
Shallow embedding of `update-pl.py`: a reconciler that keeps a cloud
prefix list (a set of IPv4 `/32` CIDR strings) in sync with the IPv4
addresses currently resolved from a configured list of hostnames.

The remote API, the DNS resolver, the clock and the UUID generator are
modelled as an explicit environment (`Env`); the handler is a pure
function from that environment to a result (`Except RunError RunResult`)
together with the ordered trace of external calls it makes
(`List CallEvent`).
-/

namespace UpdatePl

/-- The fixed operational ceiling `MAX_ENTRIES = 60` (line 10 of the source). -/
def MAX_ENTRIES : Nat := 60

/-- Metadata returned by `describe_managed_prefix_lists` and unpacked by
`_pl_meta` (lines 31–33): `(Version, MaxEntries, AddressFamily, State)`. -/
structure PlMeta where
  version : Nat
  maxEntries : Nat
  addressFamily : String
  state : String
deriving DecidableEq

/-- What `ipaddress.ip_address(ip)` determines about one address string
returned by `getaddrinfo`: an IPv4 address, an IPv6 address, or not a
parseable IP at all (`ValueError`). -/
inductive AddrKind
  | ipv4
  | ipv6
  | notIp
deriving DecidableEq

/-- One `getaddrinfo` answer: the address string `sa[0]` together with
how `ipaddress.ip_address` classifies it. -/
structure AddrInfo where
  ip : String
  kind : AddrKind
deriving DecidableEq

/-- Outcome of one `modify_managed_prefix_list` call: success (with the
`resp.get("PrefixList", {}).get("Version")` value, possibly absent), a
`ClientError` carrying its error code, or any other exception. -/
inductive ModifyOutcome
  | ok (newVersion : Option Nat)
  | clientError (code : String)
  | otherError (msg : String)
deriving DecidableEq

/-- One external call made by the handler, in program order: a DNS
lookup, a metadata describe, a paginated entries read, a modify request
(with its full payload), or a sleep. -/
inductive CallEvent
  | dnsLookup (host : String)
  | describeMeta (plId : String)
  | getEntries (plId : String)
  | modifyList (plId : String) (currentVersion : Nat)
      (addEntries : List (String × String)) (removeEntries : List String)
      (clientToken : String)
  | sleepSeconds (n : Nat)
deriving DecidableEq

/-- How a run can fail: a `RuntimeError` raised by the handler itself, a
propagated `ClientError` (its code preserved), or any other propagated
exception. -/
inductive RunError
  | runtimeError (msg : String)
  | clientError (code : String)
  | otherError (msg : String)
deriving DecidableEq

/-- A run's structured result: `{"changed": False, "reason": r}`,
`{"changed": False, "entries": n}`, or
`{"changed": True, "added": ..., "removed": ..., "new_version": ...}`. -/
inductive RunResult
  | skipped (reason : String)
  | noChange (entries : Nat)
  | applied (added removed : List String) (newVersion : Option Nat)
deriving DecidableEq

/-- The handler's environment: configuration read from the process
environment, plus oracles for every external effect (the describe
result, the DNS resolver, the entries read, the outcomes of the at most
two modify calls, the version a second describe would return, and the
stream of values `str(uuid.uuid4())` produces, call by call). -/
structure Env where
  prefixListId : String
  fqdnList : String
  entryDesc : String
  meta : PlMeta
  dns : String → Except String (List AddrInfo)
  entries : Finset String
  modify1 : ModifyOutcome
  retryVersion : Nat
  modify2 : ModifyOutcome
  uuid : Nat → String

/-- The whitespace characters `str.strip()` removes at either end. -/
def isSpaceChar (c : Char) : Bool :=
  c = ' ' || c = '\t' || c = '\n' || c = '\r' || c = '\x0b' || c = '\x0c'

/-- Python `str.strip()` on a string given as its character list. -/
def stripChars (l : List Char) : List Char :=
  ((l.dropWhile isSpaceChar).reverse.dropWhile isSpaceChar).reverse

/-- Split a character list at newline characters. -/
def splitNl : List Char → List (List Char)
  | [] => [[]]
  | c :: rest =>
    let r := splitNl rest
    if c = '\n' then [] :: r
    else
      match r with
      | [] => [[c]]
      | x :: xs => (c :: x) :: xs

/-- Embeds `_fqdns_from_env` (lines 13–14):
`FQDN_LIST.replace(",", "\n").splitlines()`, each line stripped, empty
lines dropped. Commas and line-break characters (`\n`, `\r`) all act as
separators; the extra empty piece a `\r\n` pair produces is removed by
the emptiness filter, so this agrees with `splitlines` on every input. -/
def fqdns_from_env (s : String) : List String :=
  (((splitNl (s.data.map fun c => if c = ',' || c = '\r' then '\n' else c)).map
      fun l => String.mk (stripChars l)).filter fun x => x ≠ "")

/-- Embeds `_resolve_ipv4_cidrs` (lines 16–29): for each hostname, on a
resolver error contribute nothing; otherwise add `ip ++ "/32"` for each
answer whose address parses as IPv4, accumulating into one set. -/
def resolve_ipv4_cidrs (dns : String → Except String (List AddrInfo))
    (fqdns : List String) : Finset String :=
  fqdns.foldl (fun out h =>
    match dns h with
    | .ok infos =>
        infos.foldl (fun out a =>
          if a.kind = AddrKind.ipv4 then insert (a.ip ++ "/32") out else out) out
    | .error _ => out) ∅

/-- The diff computed by handler lines 57–62 (the Reconciler contract):
`to_add = sorted(desired - current)`, `to_del = sorted(current - desired)`,
changed iff either is non-empty. -/
def reconcile (desired current : Finset String) : List String × List String × Bool :=
  let to_add := Finset.sort (· ≤ ·) (desired \ current)
  let to_del := Finset.sort (· ≤ ·) (current \ desired)
  (to_add, to_del, !(to_add.isEmpty && to_del.isEmpty))

/-- The desired set a run computes: `_resolve_ipv4_cidrs(_fqdns_from_env())`
(line 48). -/
def desiredOf (env : Env) : Finset String :=
  resolve_ipv4_cidrs env.dns (fqdns_from_env env.fqdnList)

/-- Embeds `to_add` as computed on line 57. -/
def toAddOf (env : Env) : List String :=
  Finset.sort (· ≤ ·) (desiredOf env \ env.entries)

/-- Embeds `to_del` as computed on line 58. -/
def toDelOf (env : Env) : List String :=
  Finset.sort (· ≤ ·) (env.entries \ desiredOf env)

/-- The `modify_managed_prefix_list` request issued by `_modify(cur_ver)`
(lines 66–73): add-entries each paired with `DESC`, remove-entries by
CIDR, and a fresh `ClientToken` (the `tokenIdx`-th value of the UUID
stream). -/
def modifyEvent (env : Env) (curVer : Nat) (to_add to_del : List String)
    (tokenIdx : Nat) : CallEvent :=
  .modifyList env.prefixListId curVer (to_add.map fun c => (c, env.entryDesc))
    to_del (env.uuid tokenIdx)

/-- The try/except block of lines 75–84: one modify attempt; on a
`ClientError` whose code is `InvalidPrefixListVersion` or
`IncorrectState`, sleep 2 s, re-read the metadata for a fresh version,
and retry exactly once; any other first failure, and any second failure,
propagates. Returns the result together with the calls this stage makes. -/
def applyWithRetry (env : Env) (version : Nat) (to_add to_del : List String) :
    Except RunError RunResult × List CallEvent :=
  let m1 := modifyEvent env version to_add to_del 0
  match env.modify1 with
  | .ok v => (.ok (.applied to_add to_del v), [m1])
  | .otherError msg => (.error (.otherError msg), [m1])
  | .clientError code =>
    if code = "InvalidPrefixListVersion" ∨ code = "IncorrectState" then
      let m2 := modifyEvent env env.retryVersion to_add to_del 1
      let tr := [m1, CallEvent.sleepSeconds 2, CallEvent.describeMeta env.prefixListId, m2]
      match env.modify2 with
      | .ok v => (.ok (.applied to_add to_del v), tr)
      | .clientError c2 => (.error (.clientError c2), tr)
      | .otherError msg => (.error (.otherError msg), tr)
    else
      (.error (.clientError code), [m1])

/-- Embeds `handler` (lines 43–91): metadata read and address-family check,
DNS resolution, empty-desired early return, capacity check, entries
read, diff, and the modify-with-single-retry stage. -/
def handler (env : Env) : Except RunError RunResult × List CallEvent :=
  let version := env.meta.version
  let af := env.meta.addressFamily
  let trace0 := [CallEvent.describeMeta env.prefixListId]
  if af ≠ "IPv4" then
    (.error (.runtimeError "This function expects an IPv4 prefix list."), trace0)
  else
    let fqdns := fqdns_from_env env.fqdnList
    let desired := resolve_ipv4_cidrs env.dns fqdns
    let trace1 := trace0 ++ fqdns.map CallEvent.dnsLookup
    if desired = ∅ then
      (.ok (.skipped "no_resolved_ipv4"), trace1)
    else if MAX_ENTRIES < desired.card then
      (.error (.runtimeError ("Resolved " ++ toString desired.card ++
        " entries > MAX_ENTRIES(" ++ toString MAX_ENTRIES ++ "). Reduce FQDNs.")), trace1)
    else
      let current := env.entries
      let trace2 := trace1 ++ [CallEvent.getEntries env.prefixListId]
      let to_add := Finset.sort (· ≤ ·) (desired \ current)
      let to_del := Finset.sort (· ≤ ·) (current \ desired)
      if to_add = [] ∧ to_del = [] then
        (.ok (.noChange current.card), trace2)
      else
        let step := applyWithRetry env version to_add to_del
        (step.1, trace2 ++ step.2)

/-- The calls every run that passes the address-family check makes
before touching the entry set: the metadata describe, then one DNS
lookup per configured hostname. -/
def preTrace (env : Env) : List CallEvent :=
  [CallEvent.describeMeta env.prefixListId] ++
    (fqdns_from_env env.fqdnList).map CallEvent.dnsLookup

/-- Stage lemma: a non-IPv4 address family fails immediately after the
metadata read. -/
lemma handler_bad_af (env : Env) (h : env.meta.addressFamily ≠ "IPv4") :
    handler env = (.error (.runtimeError "This function expects an IPv4 prefix list."),
      [CallEvent.describeMeta env.prefixListId]) := by
  simp [handler, h]

/-- Stage lemma: an empty desired set short-circuits after resolution. -/
lemma handler_empty_desired (env : Env) (h_af : env.meta.addressFamily = "IPv4")
    (h : desiredOf env = ∅) :
    handler env = (.ok (.skipped "no_resolved_ipv4"), preTrace env) := by
  have h' : resolve_ipv4_cidrs env.dns (fqdns_from_env env.fqdnList) = ∅ := h
  simp [handler, preTrace, h_af, h']

/-- Stage lemma: a desired set over the ceiling fails after resolution,
before the entries read. -/
lemma handler_over_capacity (env : Env) (h_af : env.meta.addressFamily = "IPv4")
    (h_card : MAX_ENTRIES < (desiredOf env).card) :
    handler env = (.error (.runtimeError ("Resolved " ++ toString (desiredOf env).card ++
      " entries > MAX_ENTRIES(" ++ toString MAX_ENTRIES ++ "). Reduce FQDNs.")),
      preTrace env) := by
  have h2 : MAX_ENTRIES < (resolve_ipv4_cidrs env.dns (fqdns_from_env env.fqdnList)).card :=
    h_card
  have h1 : resolve_ipv4_cidrs env.dns (fqdns_from_env env.fqdnList) ≠ ∅ := by
    intro he
    rw [he] at h2
    simp [MAX_ENTRIES] at h2
  simp [handler, preTrace, desiredOf, h_af, h1, h2]

/-- Stage lemma: an empty diff ends the run reporting the current entry
count, after exactly one metadata read, the DNS lookups and one entries
read. -/
lemma handler_no_change (env : Env) (h_af : env.meta.addressFamily = "IPv4")
    (h_ne : desiredOf env ≠ ∅) (h_card : ¬ MAX_ENTRIES < (desiredOf env).card)
    (hchg : toAddOf env = [] ∧ toDelOf env = []) :
    handler env = (.ok (.noChange env.entries.card),
      preTrace env ++ [CallEvent.getEntries env.prefixListId]) := by
  have h1 : resolve_ipv4_cidrs env.dns (fqdns_from_env env.fqdnList) ≠ ∅ := h_ne
  have h2 : ¬ MAX_ENTRIES < (resolve_ipv4_cidrs env.dns (fqdns_from_env env.fqdnList)).card :=
    h_card
  have h3 : Finset.sort (· ≤ ·)
      (resolve_ipv4_cidrs env.dns (fqdns_from_env env.fqdnList) \ env.entries) = [] := hchg.1
  have h4 : Finset.sort (· ≤ ·)
      (env.entries \ resolve_ipv4_cidrs env.dns (fqdns_from_env env.fqdnList)) = [] := hchg.2
  simp only [handler]
  rw [if_neg (not_not_intro h_af), if_neg h1, if_neg h2, if_pos ⟨h3, h4⟩]
  simp [preTrace]

/-- Stage lemma: a non-empty diff hands over to the modify-with-retry
stage, the trace being the read prefix followed by that stage's calls. -/
lemma handler_changed_eq (env : Env) (h_af : env.meta.addressFamily = "IPv4")
    (h_ne : desiredOf env ≠ ∅) (h_card : ¬ MAX_ENTRIES < (desiredOf env).card)
    (hchg : ¬ (toAddOf env = [] ∧ toDelOf env = [])) :
    handler env = ((applyWithRetry env env.meta.version (toAddOf env) (toDelOf env)).1,
      (preTrace env ++ [CallEvent.getEntries env.prefixListId]) ++
        (applyWithRetry env env.meta.version (toAddOf env) (toDelOf env)).2) := by
  have h1 : resolve_ipv4_cidrs env.dns (fqdns_from_env env.fqdnList) ≠ ∅ := h_ne
  have h2 : ¬ MAX_ENTRIES < (resolve_ipv4_cidrs env.dns (fqdns_from_env env.fqdnList)).card :=
    h_card
  have h3 : ¬ (Finset.sort (· ≤ ·)
      (resolve_ipv4_cidrs env.dns (fqdns_from_env env.fqdnList) \ env.entries) = [] ∧
      Finset.sort (· ≤ ·)
      (env.entries \ resolve_ipv4_cidrs env.dns (fqdns_from_env env.fqdnList)) = []) := hchg
  simp only [handler]
  rw [if_neg (not_not_intro h_af), if_neg h1, if_neg h2, if_neg h3]
  simp [preTrace, toAddOf, toDelOf, desiredOf]

/-- Sorting a finite set yields `[]` exactly on the empty set. -/
lemma sort_eq_nil_iff (s : Finset String) :
    Finset.sort (· ≤ ·) s = [] ↔ s = ∅ := by
  constructor
  · intro h
    have := Finset.sort_toFinset (· ≤ ·) s
    rw [h] at this
    simpa using this.symm
  · intro h
    rw [h]
    exact Finset.sort_empty _

/-- C1: the reconciler computes `to_add` as the sorted set difference
`desired \ current` and `to_del` as the sorted `current \ desired`;
the two differences are disjoint, `(current ∪ to_add) \ to_del = desired`,
and `changed` is true exactly when `to_add` or `to_del` is non-empty. -/
theorem reconcile_diff_correct (D C : Finset String) :
    (reconcile D C).1.toFinset = D \ C ∧
    (reconcile D C).2.1.toFinset = C \ D ∧
    List.Sorted (· ≤ ·) (reconcile D C).1 ∧
    List.Sorted (· ≤ ·) (reconcile D C).2.1 ∧
    Disjoint (D \ C) (C \ D) ∧
    (C ∪ D \ C) \ (C \ D) = D ∧
    ((reconcile D C).2.2 = true ↔ (reconcile D C).1 ≠ [] ∨ (reconcile D C).2.1 ≠ []) := by
  refine ⟨Finset.sort_toFinset _ _, Finset.sort_toFinset _ _,
    Finset.sort_sorted _ _, Finset.sort_sorted _ _, disjoint_sdiff_sdiff, ?_, ?_⟩
  · ext x
    simp only [Finset.mem_sdiff, Finset.mem_union]
    tauto
  · simp [reconcile, List.isEmpty_iff]

/-- A resolver for which every lookup fails (total DNS outage). -/
def dnsNone : String → Except String (List AddrInfo) := fun _ => .error "gaierror"

/-- A resolver answering only for `a.example`, with one IPv4, one IPv6
and one unparseable answer. -/
def dnsOne : String → Except String (List AddrInfo) := fun h =>
  if h = "a.example" then
    .ok [⟨"1.2.3.4", .ipv4⟩, ⟨"2001:db8::1", .ipv6⟩, ⟨"weird", .notIp⟩]
  else .error "gaierror"

/-- A baseline concrete environment: one hostname resolving to
`1.2.3.4/32`, a remote list currently holding `9.9.9.9/32`, both modify
outcomes successful. -/
def envBase : Env where
  prefixListId := "pl-0123456789abcdef0"
  fqdnList := "a.example"
  entryDesc := "managed"
  meta := ⟨7, 100, "IPv4", "available"⟩
  dns := dnsOne
  entries := {"9.9.9.9/32"}
  modify1 := .ok (some 8)
  retryVersion := 9
  modify2 := .ok (some 10)
  uuid := fun n => "uuid-" ++ toString n

/-- Variant of `envBase` with an IPv6 remote list. -/
def envAf6 : Env := { envBase with meta := ⟨7, 100, "IPv6", "available"⟩ }

/-- Variant of `envBase` under a total DNS outage. -/
def envNoDns : Env := { envBase with dns := dnsNone }

/-- C4: a non-IPv4 address family is fatal, raised before the entry set
is read and before any diff is computed: the run's only external call is
the metadata describe that supplied the address family. -/
theorem af_mismatch_fatal (env : Env) (h : env.meta.addressFamily ≠ "IPv4") :
    handler env = (.error (.runtimeError "This function expects an IPv4 prefix list."),
      [CallEvent.describeMeta env.prefixListId]) :=
  handler_bad_af env h

/-- Witness for C4 at the concrete IPv6 environment. -/
theorem af_mismatch_fatal_witness :
    handler envAf6 = (.error (.runtimeError "This function expects an IPv4 prefix list."),
      [CallEvent.describeMeta "pl-0123456789abcdef0"]) :=
  af_mismatch_fatal envAf6 (by decide)

/-- C5: an empty resolved union ends the run with exactly
`{changed: false, reason: "no_resolved_ipv4"}`, and no modify call is
ever issued — the remote list is not emptied. -/
theorem empty_union_noop (env : Env) (h_af : env.meta.addressFamily = "IPv4")
    (h : desiredOf env = ∅) :
    handler env = (.ok (.skipped "no_resolved_ipv4"), preTrace env) ∧
    ∀ pl v a r t, CallEvent.modifyList pl v a r t ∉ (handler env).2 := by
  have he := handler_empty_desired env h_af h
  refine ⟨he, ?_⟩
  intro pl v a r t hmem
  rw [he] at hmem
  simp [preTrace] at hmem

/-- Witness for C5 at the total-DNS-outage environment. -/
theorem empty_union_noop_witness :
    handler envNoDns = (.ok (.skipped "no_resolved_ipv4"), preTrace envNoDns) ∧
    ∀ pl v a r t, CallEvent.modifyList pl v a r t ∉ (handler envNoDns).2 :=
  empty_union_noop envNoDns (by decide) rfl

/-- A resolver answering 61 distinct IPv4 addresses for `many.example`. -/
def dnsMany : String → Except String (List AddrInfo) := fun h =>
  if h = "many.example" then
    .ok ((List.range 61).map fun i => ⟨"10.0.0." ++ toString i, .ipv4⟩)
  else .error "gaierror"

/-- Variant of `envBase` pointed at the hostname resolving to 61 addresses. -/
def envBig : Env := { envBase with fqdnList := "many.example", dns := dnsMany }

/-- C3: a desired set larger than `MAX_ENTRIES` is fatal and the modify
API is never invoked; the ceiling is the fixed constant 60, and the
fetched `maxEntries` and `state` play no role (the same behaviour for
every value of either field). -/
theorem capacity_exceeded_fatal (env : Env) (h_af : env.meta.addressFamily = "IPv4")
    (h_card : MAX_ENTRIES < (desiredOf env).card) :
    handler env = (.error (.runtimeError ("Resolved " ++ toString (desiredOf env).card ++
      " entries > MAX_ENTRIES(" ++ toString MAX_ENTRIES ++ "). Reduce FQDNs.")),
      preTrace env) ∧
    (∀ pl v a r t, CallEvent.modifyList pl v a r t ∉ (handler env).2) ∧
    MAX_ENTRIES = 60 ∧
    (∀ m s, handler { env with meta := { env.meta with maxEntries := m, state := s } } =
      handler env) := by
  have he := handler_over_capacity env h_af h_card
  refine ⟨he, ?_, rfl, fun m s => rfl⟩
  intro pl v a r t hmem
  rw [he] at hmem
  simp [preTrace] at hmem

set_option maxRecDepth 20000 in
/-- Witness for C3 at the 61-address environment. -/
theorem capacity_exceeded_fatal_witness :
    handler envBig = (.error (.runtimeError ("Resolved " ++ toString (desiredOf envBig).card ++
      " entries > MAX_ENTRIES(" ++ toString MAX_ENTRIES ++ "). Reduce FQDNs.")),
      preTrace envBig) ∧
    (∀ pl v a r t, CallEvent.modifyList pl v a r t ∉ (handler envBig).2) ∧
    MAX_ENTRIES = 60 ∧
    (∀ m s, handler { envBig with meta := { envBig.meta with maxEntries := m, state := s } } =
      handler envBig) :=
  capacity_exceeded_fatal envBig (by decide) (by decide)

/-- C6 counterexample: under a total DNS outage the run does return
exactly the benign no-op result, but a remote metadata call occurs, and
it occurs before any resolution attempt — resolution is not attempted
before every remote read. -/
theorem resolution_not_before_metadata :
    (handler envNoDns).1 = .ok (.skipped "no_resolved_ipv4") ∧
    CallEvent.describeMeta "pl-0123456789abcdef0" ∈ (handler envNoDns).2 ∧
    (handler envNoDns).2.head? = some (CallEvent.describeMeta "pl-0123456789abcdef0") := by
  rw [handler_empty_desired envNoDns rfl rfl]
  refine ⟨rfl, ?_, rfl⟩
  decide

/-- The resolver contributes nothing when every lookup fails. -/
lemma resolve_eq_empty_of_all_fail (dns : String → Except String (List AddrInfo))
    (fqdns : List String) (hf : ∀ h ∈ fqdns, ∃ e, dns h = .error e) :
    resolve_ipv4_cidrs dns fqdns = ∅ := by
  rw [resolve_ipv4_cidrs]
  induction fqdns with
  | nil => rfl
  | cons hd tl ih =>
    obtain ⟨e, he⟩ := hf hd (List.mem_cons_self hd tl)
    rw [List.foldl_cons, he]
    exact ih fun h hm => hf h (List.mem_cons_of_mem hd hm)

/-- C6 (amended): the single metadata read happens first, resolution is
attempted after it but before any further remote call; when every
configured hostname fails to resolve, the result is exactly
`{changed: false, reason: "no_resolved_ipv4"}` and no entries read and
no update call occurs — the one metadata describe is the only remote
call. -/
theorem total_resolution_failure_noop (env : Env)
    (h_af : env.meta.addressFamily = "IPv4")
    (hf : ∀ h ∈ fqdns_from_env env.fqdnList, ∃ e, env.dns h = .error e) :
    handler env = (.ok (.skipped "no_resolved_ipv4"),
      [CallEvent.describeMeta env.prefixListId] ++
        (fqdns_from_env env.fqdnList).map CallEvent.dnsLookup) ∧
    (handler env).2.head? = some (CallEvent.describeMeta env.prefixListId) ∧
    CallEvent.getEntries env.prefixListId ∉ (handler env).2 ∧
    (∀ pl v a r t, CallEvent.modifyList pl v a r t ∉ (handler env).2) := by
  have hd : desiredOf env = ∅ := resolve_eq_empty_of_all_fail env.dns _ hf
  have he := handler_empty_desired env h_af hd
  rw [he]
  refine ⟨rfl, rfl, ?_, ?_⟩
  · simp [preTrace]
  · intro pl v a r t
    simp [preTrace]

/-- Witness for the amended C6 at the total-DNS-outage environment. -/
theorem total_resolution_failure_noop_witness :
    handler envNoDns = (.ok (.skipped "no_resolved_ipv4"),
      [CallEvent.describeMeta envNoDns.prefixListId] ++
        (fqdns_from_env envNoDns.fqdnList).map CallEvent.dnsLookup) ∧
    (handler envNoDns).2.head? = some (CallEvent.describeMeta envNoDns.prefixListId) ∧
    CallEvent.getEntries envNoDns.prefixListId ∉ (handler envNoDns).2 ∧
    (∀ pl v a r t, CallEvent.modifyList pl v a r t ∉ (handler envNoDns).2) :=
  total_resolution_failure_noop envNoDns (by decide) (fun h _ => ⟨"gaierror", rfl⟩)

/-- C9: the fetched `maxEntries` and `state` metadata fields are never
consulted: the result and the full call trace are unchanged under any
values of those two fields. -/
theorem meta_fields_not_consulted (env : Env) (m : Nat) (s : String) :
    handler { env with meta := { env.meta with maxEntries := m, state := s } } =
      handler env := rfl

/-- Variant of `envBase` whose first modify call fails with a stale-version error. -/
def envRetry : Env := { envBase with modify1 := .clientError "InvalidPrefixListVersion" }

/-- Variant of `envBase` whose first modify call fails with the list-busy error. -/
def envBusy : Env := { envBase with modify1 := .clientError "IncorrectState" }

/-- C2: after the reads and a non-empty diff, a first modify failure of
the version-conflict class (`InvalidPrefixListVersion`) or the list-busy
class (`IncorrectState`) is followed by exactly: a 2-second sleep, one
metadata describe (no entries re-read), and one retry carrying the
re-read version; the retry's failure of either kind is fatal with no
further call, and a first failure of any other cause is immediately
fatal with the cause preserved and no retry. -/
theorem single_retry_semantics (env : Env) (h_af : env.meta.addressFamily = "IPv4")
    (h_ne : desiredOf env ≠ ∅) (h_card : ¬ MAX_ENTRIES < (desiredOf env).card)
    (hchg : ¬ (toAddOf env = [] ∧ toDelOf env = [])) :
    (∀ msg, env.modify1 = .otherError msg →
      handler env = (.error (.otherError msg),
        (preTrace env ++ [CallEvent.getEntries env.prefixListId]) ++
          [modifyEvent env env.meta.version (toAddOf env) (toDelOf env) 0])) ∧
    (∀ code, env.modify1 = .clientError code →
      code ≠ "InvalidPrefixListVersion" → code ≠ "IncorrectState" →
      handler env = (.error (.clientError code),
        (preTrace env ++ [CallEvent.getEntries env.prefixListId]) ++
          [modifyEvent env env.meta.version (toAddOf env) (toDelOf env) 0])) ∧
    (∀ code, env.modify1 = .clientError code →
      code = "InvalidPrefixListVersion" ∨ code = "IncorrectState" →
      (handler env).2 =
        (preTrace env ++ [CallEvent.getEntries env.prefixListId]) ++
          [modifyEvent env env.meta.version (toAddOf env) (toDelOf env) 0,
           CallEvent.sleepSeconds 2, CallEvent.describeMeta env.prefixListId,
           modifyEvent env env.retryVersion (toAddOf env) (toDelOf env) 1] ∧
      (∀ v, env.modify2 = .ok v →
        (handler env).1 = .ok (.applied (toAddOf env) (toDelOf env) v)) ∧
      (∀ c2, env.modify2 = .clientError c2 →
        (handler env).1 = .error (.clientError c2)) ∧
      (∀ msg, env.modify2 = .otherError msg →
        (handler env).1 = .error (.otherError msg))) := by
  have H := handler_changed_eq env h_af h_ne h_card hchg
  refine ⟨?_, ?_, ?_⟩
  · intro msg hm1
    rw [H, applyWithRetry, hm1]
  · intro code hm1 hc1 hc2
    have hnot : ¬ (code = "InvalidPrefixListVersion" ∨ code = "IncorrectState") :=
      fun hor => hor.elim hc1 hc2
    rw [H, applyWithRetry, hm1]
    simp [hnot]
  · intro code hm1 hcode
    rw [H, applyWithRetry, hm1]
    simp only [if_pos hcode]
    refine ⟨?_, ?_, ?_, ?_⟩
    · cases hm2 : env.modify2 <;> simp [hm2]
    · intro v hm2
      rw [hm2]
    · intro c2 hm2
      rw [hm2]
    · intro msg hm2
      rw [hm2]

/-- Witness for C2: the retryable branch at `envRetry` (first call fails
with `InvalidPrefixListVersion`, second succeeds). -/
theorem single_retry_semantics_witness :
    (handler envRetry).2 =
      (preTrace envRetry ++ [CallEvent.getEntries envRetry.prefixListId]) ++
        [modifyEvent envRetry envRetry.meta.version (toAddOf envRetry) (toDelOf envRetry) 0,
         CallEvent.sleepSeconds 2, CallEvent.describeMeta envRetry.prefixListId,
         modifyEvent envRetry envRetry.retryVersion (toAddOf envRetry) (toDelOf envRetry) 1] ∧
    (handler envRetry).1 = .ok (.applied (toAddOf envRetry) (toDelOf envRetry) (some 10)) := by
  have hadd : toAddOf envRetry = ["1.2.3.4/32"] := by
    rw [toAddOf, show desiredOf envRetry \ envRetry.entries = {"1.2.3.4/32"} from rfl,
      Finset.sort_singleton]
  have h := single_retry_semantics envRetry rfl
    (by simp [show desiredOf envRetry = {"1.2.3.4/32"} from rfl])
    (by rw [show (desiredOf envRetry).card = 1 from rfl]; decide)
    (by simp [hadd])
  have h3 := h.2.2 "InvalidPrefixListVersion" rfl (Or.inl rfl)
  exact ⟨h3.1, h3.2.1 (some 10) rfl⟩

/-- C10: when the single retry occurs, the two modify requests carry the
0th and 1st values of the UUID stream respectively — each call draws its
own fresh token — and those tokens are distinct. -/
theorem retry_token_distinct (env : Env) (h_af : env.meta.addressFamily = "IPv4")
    (h_ne : desiredOf env ≠ ∅) (h_card : ¬ MAX_ENTRIES < (desiredOf env).card)
    (hchg : ¬ (toAddOf env = [] ∧ toDelOf env = [])) (code : String)
    (hm1 : env.modify1 = .clientError code)
    (hcode : code = "InvalidPrefixListVersion" ∨ code = "IncorrectState")
    (hfresh : env.uuid 0 ≠ env.uuid 1) :
    ∃ t1 t2,
      (handler env).2 =
        (preTrace env ++ [CallEvent.getEntries env.prefixListId]) ++
          [CallEvent.modifyList env.prefixListId env.meta.version
             ((toAddOf env).map fun c => (c, env.entryDesc)) (toDelOf env) t1,
           CallEvent.sleepSeconds 2, CallEvent.describeMeta env.prefixListId,
           CallEvent.modifyList env.prefixListId env.retryVersion
             ((toAddOf env).map fun c => (c, env.entryDesc)) (toDelOf env) t2] ∧
      t1 = env.uuid 0 ∧ t2 = env.uuid 1 ∧ t1 ≠ t2 := by
  refine ⟨env.uuid 0, env.uuid 1, ?_, rfl, rfl, hfresh⟩
  rw [handler_changed_eq env h_af h_ne h_card hchg, applyWithRetry, hm1]
  simp only [if_pos hcode]
  cases hm2 : env.modify2 <;> simp [hm2, modifyEvent]

/-- Witness for C10: the retry at `envBusy` (first call fails with
`IncorrectState`) uses a token distinct from the first call's token. -/
theorem retry_token_distinct_witness :
    ∃ t1 t2,
      (handler envBusy).2 =
        (preTrace envBusy ++ [CallEvent.getEntries envBusy.prefixListId]) ++
          [CallEvent.modifyList envBusy.prefixListId envBusy.meta.version
             ((toAddOf envBusy).map fun c => (c, envBusy.entryDesc)) (toDelOf envBusy) t1,
           CallEvent.sleepSeconds 2, CallEvent.describeMeta envBusy.prefixListId,
           CallEvent.modifyList envBusy.prefixListId envBusy.retryVersion
             ((toAddOf envBusy).map fun c => (c, envBusy.entryDesc)) (toDelOf envBusy) t2] ∧
      t1 = envBusy.uuid 0 ∧ t2 = envBusy.uuid 1 ∧ t1 ≠ t2 := by
  have hadd : toAddOf envBusy = ["1.2.3.4/32"] := by
    rw [toAddOf, show desiredOf envBusy \ envBusy.entries = {"1.2.3.4/32"} from rfl,
      Finset.sort_singleton]
  exact retry_token_distinct envBusy rfl
    (by simp [show desiredOf envBusy = {"1.2.3.4/32"} from rfl])
    (by rw [show (desiredOf envBusy).card = 1 from rfl]; decide)
    (by simp [hadd]) "IncorrectState" rfl (Or.inr rfl) (by decide)

/-- C8: if a run applied a mutation and the remote entry set thereafter
equals the desired set, a second run with the same DNS answers computes
an empty diff, returns `{changed: false, entries: |D|}`, and issues no
modify call. -/
theorem second_run_idempotent (env : Env) (a r : List String) (v : Option Nat)
    (h1 : (handler env).1 = .ok (.applied a r v)) :
    (handler { env with entries := desiredOf env }).1 =
      .ok (.noChange (desiredOf env).card) ∧
    ∀ pl v2 a2 r2 t,
      CallEvent.modifyList pl v2 a2 r2 t ∉ (handler { env with entries := desiredOf env }).2 := by
  by_cases haf : env.meta.addressFamily = "IPv4"
  case neg =>
    rw [handler_bad_af env haf] at h1
    simp at h1
  by_cases hne : desiredOf env = ∅
  case pos =>
    rw [handler_empty_desired env haf hne] at h1
    simp at h1
  by_cases hcard : MAX_ENTRIES < (desiredOf env).card
  case pos =>
    rw [handler_over_capacity env haf hcard] at h1
    simp at h1
  have e1 : desiredOf { env with entries := desiredOf env } = desiredOf env := rfl
  have e2 : ({ env with entries := desiredOf env } : Env).entries = desiredOf env := rfl
  have hadd : toAddOf { env with entries := desiredOf env } = [] := by
    rw [toAddOf, e1, e2, Finset.sdiff_self, Finset.sort_empty]
  have hdel : toDelOf { env with entries := desiredOf env } = [] := by
    rw [toDelOf, e1, e2, Finset.sdiff_self, Finset.sort_empty]
  have he := handler_no_change { env with entries := desiredOf env } haf
    (by rw [e1]; exact hne) (by rw [e1]; exact hcard) ⟨hadd, hdel⟩
  rw [he]
  refine ⟨rfl, ?_⟩
  intro pl v2 a2 r2 t
  simp [preTrace]

/-- Witness for C8: `envBase` applies `add=[1.2.3.4/32]`,
`del=[9.9.9.9/32]`; rerunning with the remote set equal to the desired
set reports no change. -/
theorem second_run_idempotent_witness :
    (handler { envBase with entries := desiredOf envBase }).1 =
      .ok (.noChange (desiredOf envBase).card) ∧
    ∀ pl v2 a2 r2 t,
      CallEvent.modifyList pl v2 a2 r2 t ∉
        (handler { envBase with entries := desiredOf envBase }).2 := by
  have hadd : toAddOf envBase = ["1.2.3.4/32"] := by
    rw [toAddOf, show desiredOf envBase \ envBase.entries = {"1.2.3.4/32"} from rfl,
      Finset.sort_singleton]
  have h1 : (handler envBase).1 = .ok (.applied (toAddOf envBase) (toDelOf envBase) (some 8)) := by
    rw [handler_changed_eq envBase rfl
      (by simp [show desiredOf envBase = {"1.2.3.4/32"} from rfl])
      (by rw [show (desiredOf envBase).card = 1 from rfl]; decide)
      (by simp [hadd])]
    rfl
  exact second_run_idempotent envBase (toAddOf envBase) (toDelOf envBase) (some 8) h1

/-- Membership in the inner fold of `_resolve_ipv4_cidrs` over one
hostname's answers. -/
lemma mem_resolve_inner (infos : List AddrInfo) (out : Finset String) (c : String) :
    (c ∈ infos.foldl (fun out a =>
        if a.kind = AddrKind.ipv4 then insert (a.ip ++ "/32") out else out) out) ↔
      c ∈ out ∨ ∃ a ∈ infos, a.kind = AddrKind.ipv4 ∧ c = a.ip ++ "/32" := by
  induction infos generalizing out with
  | nil => simp
  | cons a rest ih =>
    rw [List.foldl_cons, ih]
    by_cases hk : a.kind = AddrKind.ipv4
    · rw [if_pos hk]
      simp only [Finset.mem_insert, List.mem_cons]
      constructor
      · rintro ((h | h) | ⟨b, hb, hkb, hc⟩)
        · exact Or.inr ⟨a, Or.inl rfl, hk, h⟩
        · exact Or.inl h
        · exact Or.inr ⟨b, Or.inr hb, hkb, hc⟩
      · rintro (h | ⟨b, (rfl | hb), hkb, hc⟩)
        · exact Or.inl (Or.inr h)
        · exact Or.inl (Or.inl hc)
        · exact Or.inr ⟨b, hb, hkb, hc⟩
    · simp only [if_neg hk, List.mem_cons]
      constructor
      · rintro (h | ⟨b, hb, hkb, hc⟩)
        · exact Or.inl h
        · exact Or.inr ⟨b, Or.inr hb, hkb, hc⟩
      · rintro (h | ⟨b, (rfl | hb), hkb, hc⟩)
        · exact Or.inl h
        · exact absurd hkb hk
        · exact Or.inr ⟨b, hb, hkb, hc⟩

/-- Membership in the outer fold of `_resolve_ipv4_cidrs` over the
hostname list. -/
lemma mem_resolve_foldl (dns : String → Except String (List AddrInfo))
    (fqdns : List String) (out : Finset String) (c : String) :
    (c ∈ fqdns.foldl (fun out h =>
        match dns h with
        | .ok infos => infos.foldl (fun out a =>
            if a.kind = AddrKind.ipv4 then insert (a.ip ++ "/32") out else out) out
        | .error _ => out) out) ↔
      c ∈ out ∨ ∃ h ∈ fqdns, ∃ infos, dns h = .ok infos ∧
        ∃ a ∈ infos, a.kind = AddrKind.ipv4 ∧ c = a.ip ++ "/32" := by
  induction fqdns generalizing out with
  | nil => simp
  | cons hd tl ih =>
    rw [List.foldl_cons, ih]
    cases hdns : dns hd with
    | ok infos =>
      rw [mem_resolve_inner]
      constructor
      · rintro ((h | ⟨a, ha, hka, hc⟩) | ⟨h, hm, rest⟩)
        · exact Or.inl h
        · exact Or.inr ⟨hd, List.mem_cons_self hd tl, infos, hdns, a, ha, hka, hc⟩
        · exact Or.inr ⟨h, List.mem_cons_of_mem hd hm, rest⟩
      · rintro (h | ⟨h, hm, infos2, hdns2, a, ha, hka, hc⟩)
        · exact Or.inl (Or.inl h)
        · rcases List.mem_cons.mp hm with rfl | hm2
          · rw [hdns] at hdns2
            cases hdns2
            exact Or.inl (Or.inr ⟨a, ha, hka, hc⟩)
          · exact Or.inr ⟨h, hm2, infos2, hdns2, a, ha, hka, hc⟩
    | error e =>
      constructor
      · rintro (h | ⟨h, hm, rest⟩)
        · exact Or.inl h
        · exact Or.inr ⟨h, List.mem_cons_of_mem hd hm, rest⟩
      · rintro (h | ⟨h, hm, infos2, hdns2, rest⟩)
        · exact Or.inl h
        · rcases List.mem_cons.mp hm with rfl | hm2
          · rw [hdns] at hdns2
            cases hdns2
          · exact Or.inr ⟨h, hm2, infos2, hdns2, rest⟩

/-- C7: a CIDR is in the resolver's union exactly when some configured
hostname resolved successfully to an answer whose address is IPv4 and
the CIDR is that address suffixed with `/32` — failed hostnames
contribute nothing, IPv6 and non-IP answers are discarded, and the
per-hostname results are unioned into one deduplicated set. -/
theorem resolver_membership (dns : String → Except String (List AddrInfo))
    (fqdns : List String) (c : String) :
    c ∈ resolve_ipv4_cidrs dns fqdns ↔
      ∃ h ∈ fqdns, ∃ infos, dns h = .ok infos ∧
        ∃ a ∈ infos, a.kind = AddrKind.ipv4 ∧ c = a.ip ++ "/32" := by
  rw [resolve_ipv4_cidrs, mem_resolve_foldl]
  simp

end UpdatePl
